import Mathlib

/-!
Shallow embedding of `src/l_system.py`: an L-system grammar expander
(`L_Grammar`) and a turtle-graphics agent (`SimpleAgent` / `L_Agent`).

Modelling decisions:

* Python floats are modelled as rationals (`ℚ`).  The only transcendental
  operations, `np.cos (2*np.pi*phi/360)` and `np.sin (2*np.pi*phi/360)`,
  are abstracted as a pair of functions `Trig.cosd` / `Trig.sind` from the
  degree heading to the cosine / sine of the corresponding radian angle;
  theorems about concrete runs take the needed trigonometric values as
  hypotheses (floating-point cosine has no exact shallow embedding, and the
  spec only asserts approximate positions at headings 0 and 90).

* Python exceptions are modelled with `Except (Err × SimpleAgent) SimpleAgent`:
  an error carries, next to the error kind, the agent state at the moment the
  exception escapes, so that claims about mutation-before-raise are statable.
  The translation mirrors the source order of operations: `pop` on an empty
  stack raises from `self._state.pop()` before any field is assigned, so the
  carried state is the unmodified one.

* In the source, `push` appends the current `_trace` list object itself to
  `_traces` (a reference, not a copy); later `forward` calls mutate that
  archived entry too, until `pop` rebinds `self._trace` to a fresh list.
  All entries appended between two consecutive rebinds alias one object and
  are frozen at the same value at the next rebind.  The state therefore keeps
  `frozen` (the value-frozen archived polylines, in order) together with
  `live`, the number of entries of `_traces` that currently alias `_trace`;
  the Python `_traces` list is `frozen ++ List.replicate live _trace`.
-/

namespace LSys

/-- A 2D point, as produced by the turtle (a Python `(x, y)` tuple). -/
abbrev Point : Type := ℚ × ℚ

/-- The Python exceptions the module can raise:
`precondition` is the `AssertionError` of `forward`'s
`assert r >= 0`; `underflow` is the `IndexError` of `self._state.pop()` on an
empty list; `keyError c` is the `KeyError` of `self.rules[i]` for an unmapped
symbol; `attributeError n` is the `AttributeError` of calling an undefined
method `n` (the default rule for `'B'` calls `t.back`, which does not exist). -/
inductive Err : Type where
  | precondition : Err
  | underflow : Err
  | keyError : Char → Err
  | attributeError : String → Err
  deriving DecidableEq

/-- Abstraction of `np.cos (2*np.pi*phi/360)` and `np.sin (2*np.pi*phi/360)`
as functions of the degree heading `phi` (see the module docstring). -/
structure Trig : Type where
  cosd : ℚ → ℚ
  sind : ℚ → ℚ

/-- State of `SimpleAgent` (src/l_system.py:23-38): position `(x, y)`,
heading `phi` in degrees, the open polyline `_trace`, the saved-state stack
`_state` (head = top, modelling append/pop at the Python list's end), and the
archived polylines, split as `frozen ++ List.replicate live _trace` to model
the aliasing of `_traces` entries with the live `_trace` object. -/
structure SimpleAgent : Type where
  x : ℚ
  y : ℚ
  phi : ℚ
  _trace : List Point
  _state : List (ℚ × ℚ × ℚ)
  frozen : List (List Point)
  live : Nat
  deriving DecidableEq

namespace SimpleAgent

/-- `SimpleAgent.__init__` (src/l_system.py:26-38): position `(x0, y0)`,
heading `phi0`, open polyline holding the start point, empty stack, no
archived polylines.  (The Python defaults are `x0=0, y0=0, phi0=0`.) -/
def init (x0 y0 phi0 : ℚ) : SimpleAgent :=
  { x := x0, y := y0, phi := phi0,
    _trace := [(x0, y0)], _state := [], frozen := [], live := 0 }

/-- The value of the Python `_traces` field: the archived polylines, where the
entries still aliasing the live `_trace` object show its current value. -/
def traces (s : SimpleAgent) : List (List Point) :=
  s.frozen ++ List.replicate s.live s._trace

/-- The `trace` property (src/l_system.py:40-42): `self._traces + [self._trace]`. -/
def trace (s : SimpleAgent) : List (List Point) :=
  s.traces ++ [s._trace]

/-- `SimpleAgent.forward` (src/l_system.py:44-51): asserts `r >= 0`, then
moves by `r` along the heading (`x += r*cos(2*pi*phi/360)`, likewise `y` with
sine, here via `T.cosd`/`T.sind`) and appends the new position to the open
polyline.  The assert raises before any mutation, so the error state is `s`.
(The Python default is `r=1.0`.) -/
def forward (T : Trig) (s : SimpleAgent) (r : ℚ) : Except (Err × SimpleAgent) SimpleAgent :=
  if 0 ≤ r then
    let x := s.x + r * T.cosd s.phi
    let y := s.y + r * T.sind s.phi
    .ok { s with x := x, y := y, _trace := s._trace ++ [(x, y)] }
  else
    .error (.precondition, s)

/-- `SimpleAgent.backward` (src/l_system.py:53-57): `self.forward (-1.0*r)`.
(The Python default is `r=1.0`.) -/
def backward (T : Trig) (s : SimpleAgent) (r : ℚ) : Except (Err × SimpleAgent) SimpleAgent :=
  s.forward T (-1 * r)

/-- `SimpleAgent.rotate` (src/l_system.py:59-63): `self.phi += angle`.  Never fails. -/
def rotate (s : SimpleAgent) (angle : ℚ) : SimpleAgent :=
  { s with phi := s.phi + angle }

/-- `SimpleAgent.push` (src/l_system.py:65-67): saves `(x, y, phi)` on the
stack and appends the open `_trace` object to `_traces` — by reference, hence
one more live alias.  `_trace` itself is not rebound. -/
def push (s : SimpleAgent) : SimpleAgent :=
  { s with _state := (s.x, s.y, s.phi) :: s._state, live := s.live + 1 }

/-- `SimpleAgent.pop` (src/l_system.py:69-72): `self._state.pop()` raises
`IndexError` on an empty stack, before any assignment.  Otherwise it restores
`(x, y, phi)` from the top, appends `_trace` to `_traces` once more (another
alias), and rebinds `_trace` to the fresh list `[(x, y)]` — which freezes all
`live + 1` aliases at the current value of `_trace`. -/
def pop (s : SimpleAgent) : Except (Err × SimpleAgent) SimpleAgent :=
  match s._state with
  | [] => .error (.underflow, s)
  | (x, y, phi) :: rest =>
      .ok { x := x, y := y, phi := phi,
            _trace := [(x, y)], _state := rest,
            frozen := s.frozen ++ List.replicate (s.live + 1) s._trace,
            live := 0 }

/-- `SimpleAgent.noop` (src/l_system.py:74-78): does nothing. -/
def noop (s : SimpleAgent) : SimpleAgent := s

end SimpleAgent

/-- The operations stored in `L_Agent.default_rules` (src/l_system.py:103-110),
defunctionalised: each constructor is one of the eight lambdas of the table. -/
inductive Op : Type where
  | opForward : Op
  | opBack : Op
  | opRotNeg : Op
  | opRotPos : Op
  | opNoop : Op
  | opPush : Op
  | opPop : Op
  deriving DecidableEq

/-- Semantics of a table entry, invoked as `rule (self, step, dphi)`
(src/l_system.py:129).  `opBack` is `lambda t, d, a: t.back (d)`: `t.back` is
not defined anywhere on the class, so attribute lookup raises
`AttributeError` before any state change. -/
def applyOp (T : Trig) (op : Op) (t : SimpleAgent) (d a : ℚ) :
    Except (Err × SimpleAgent) SimpleAgent :=
  match op with
  | .opForward => t.forward T d
  | .opBack => .error (.attributeError "back", t)
  | .opRotNeg => .ok (t.rotate (-a))
  | .opRotPos => .ok (t.rotate a)
  | .opNoop => .ok t.noop
  | .opPush => .ok t.push
  | .opPop => t.pop

/-- `L_Agent.default_rules` (src/l_system.py:103-110): the default dispatch
table.  A Python dict lookup with no fallback: symbols outside the table map
to `none` (a `KeyError` when dispatched). -/
def default_rules : Char → Option Op
  | 'F' => some .opForward
  | 'B' => some .opBack
  | '+' => some .opRotNeg
  | '-' => some .opRotPos
  | 'X' => some .opNoop
  | 'Y' => some .opNoop
  | '[' => some .opPush
  | ']' => some .opPop
  | _ => none

/-- The loop of `L_Agent._process` (src/l_system.py:126-129): for each
character of the expanded sequence, `self.rules[i] (self, self.step, self.dphi)`;
a symbol absent from the table raises `KeyError` (state unchanged), and an
exception inside an operation propagates with the state it carries. -/
def processSeq (T : Trig) (rules : Char → Option Op) (step dphi : ℚ) :
    List Char → SimpleAgent → Except (Err × SimpleAgent) SimpleAgent
  | [], s => .ok s
  | c :: cs, s =>
      match rules c with
      | none => .error (.keyError c, s)
      | some op =>
          match applyOp T op s step dphi with
          | .error e => .error e
          | .ok s' => processSeq T rules step dphi cs s'

/-- `L_Grammar` (src/l_system.py:6-14): an initial string and a rewrite-rule
mapping from characters to replacement strings (a Python dict, modelled as a
partial function). -/
structure L_Grammar : Type where
  initial : String
  rules : Char → Option String

/-- One rewrite pass, the body of the loop in `L_Grammar.expand`
(src/l_system.py:19): `"".join ([self.rules.get (ch, ch) for ch in expansion])` —
each character is replaced by its rule if mapped, else passed through. -/
def rewritePass (rules : Char → Option String) (s : String) : String :=
  String.join (s.data.map fun ch => (rules ch).getD (String.singleton ch))

/-- The loop of `L_Grammar.expand` (src/l_system.py:17-19): starting from `s`,
apply `rewritePass` once per remaining iteration. -/
def expandLoop (rules : Char → Option String) : Nat → String → String
  | 0, s => s
  | n + 1, s => expandLoop rules n (rewritePass rules s)

/-- `L_Grammar.expand` (src/l_system.py:16-20): run the rewrite loop
`iterations` times over `initial`.  (The Python default is `iterations=1`.) -/
def L_Grammar.expand (g : L_Grammar) (iterations : Nat) : String :=
  expandLoop g.rules iterations g.initial

/-- `L_Agent.__init__` + `L_Agent._process` (src/l_system.py:112-129): expand
the grammar once and interpret every character of the result, from the
`SimpleAgent.init` state.  (Python defaults: `x0=0, y0=0, phi0=0, step=5,
phi=60, iterations=1`.) -/
def L_Agent_run (T : Trig) (rules : Char → Option Op) (grammar : L_Grammar)
    (step dphi : ℚ) (iterations : Nat) (x0 y0 phi0 : ℚ) :
    Except (Err × SimpleAgent) SimpleAgent :=
  processSeq T rules step dphi (grammar.expand iterations).data
    (SimpleAgent.init x0 y0 phi0)

/-- Decidable equality for `Except`, so that concrete runs of the embedded
operations can be checked by `decide`. -/
instance exceptDecEq {ε α : Type} [DecidableEq ε] [DecidableEq α] :
    DecidableEq (Except ε α) := fun a b =>
  match a, b with
  | .ok a, .ok b =>
      if h : a = b then .isTrue (by rw [h])
      else .isFalse (by intro he; cases he; exact h rfl)
  | .ok _, .error _ => .isFalse (by intro he; cases he)
  | .error _, .ok _ => .isFalse (by intro he; cases he)
  | .error e, .error f =>
      if h : e = f then .isTrue (by rw [h])
      else .isFalse (by intro he; cases he; exact h rfl)

/-- A concrete trig table with `cosd = 1`, `sind = 0` everywhere: agrees with
the real values at heading 0, the only heading reached in runs that never
rotate. -/
def trig0 : Trig := { cosd := fun _ => 1, sind := fun _ => 0 }

/-- A concrete trig table agreeing with the real values at headings 0 and 90. -/
def trig01 : Trig :=
  { cosd := fun phi => if phi = 0 then 1 else 0,
    sind := fun phi => if phi = 90 then 1 else 0 }

/-- The number of polylines an agent currently holds: the frozen archived
ones, the live aliases, and the open polyline. -/
lemma trace_length (s : SimpleAgent) :
    s.trace.length = s.frozen.length + s.live + 1 := by
  simp [SimpleAgent.trace, SimpleAgent.traces]
  omega

/-- The expansion loop is the iterate of the rewrite pass. -/
lemma expandLoop_eq_iterate (rules : Char → Option String) (n : Nat) (s : String) :
    expandLoop rules n s = (rewritePass rules)^[n] s := by
  induction n generalizing s with
  | zero => rfl
  | succ n ih => rw [expandLoop, ih, Function.iterate_succ_apply]

/-- Claim C3: `expand n` is the `n`-fold sequential application of the single
rewrite pass (replace `c` by `rules c` when mapped, else keep `c`) to the
initial string; in particular `expand 0` is the initial string unchanged and
`expand (n+1)` is one more pass applied to `expand n`. -/
theorem C3_expand_iterates (g : L_Grammar) (n : Nat) :
    g.expand n = (rewritePass g.rules)^[n] g.initial ∧
    g.expand 0 = g.initial ∧
    g.expand (n + 1) = rewritePass g.rules (g.expand n) := by
  refine ⟨expandLoop_eq_iterate g.rules n g.initial, rfl, ?_⟩
  rw [L_Grammar.expand, L_Grammar.expand, expandLoop_eq_iterate, expandLoop_eq_iterate,
    Function.iterate_succ_apply']

/-- Claim C1 (evaluation at the failing input): contrary to the claim,
`backward 1` does not succeed: `backward` forwards `-1.0 * r`, and `forward`'s
own non-negativity assertion then fires, so the call raises the precondition
error with the agent state untouched. -/
theorem C1_backward_raises_on_positive :
    (SimpleAgent.init 0 0 0).backward trig0 1 =
      Except.error (Err.precondition, SimpleAgent.init 0 0 0) := by
  norm_num [SimpleAgent.backward, SimpleAgent.forward, SimpleAgent.init, trig0]

/-- Claim C2 (evaluation at the failing input): contrary to the claim, an
agent with the default table does not move backward at symbol `'B'`: the
default rule for `'B'` calls the undefined method `back`, so interpreting a
grammar expanding to `"B"` raises an attribute error at the initial state. -/
theorem C2_B_dispatch_raises :
    L_Agent_run trig0 default_rules { initial := "B", rules := fun _ => none } 5 60 1 0 0 0 =
      Except.error (Err.attributeError "back", SimpleAgent.init 0 0 0) := by
  have hB : default_rules 'B' = some Op.opBack := rfl
  have hexp : L_Grammar.expand { initial := "B", rules := fun _ => none } 1 = "B" := rfl
  simp [L_Agent_run, hexp, processSeq, hB, applyOp]

/-- Claim C6: when interpretation reaches a character with no entry in the
dispatch table, it raises the unknown-symbol (`KeyError`) error at the current
state — the table has no identity fallback. -/
theorem C6_unknown_symbol (T : Trig) (rules : Char → Option Op) (step dphi : ℚ)
    (c : Char) (cs : List Char) (s : SimpleAgent) (h : rules c = none) :
    processSeq T rules step dphi (c :: cs) s = Except.error (Err.keyError c, s) := by
  simp [processSeq, h]

/-- Witness for C6: the default table has no entry for `'Q'`, so the command
string `"Q"` fails with the unknown-symbol error from the fresh agent state. -/
theorem C6_unknown_symbol_witness :
    processSeq trig0 default_rules 5 60 ['Q'] (SimpleAgent.init 0 0 0) =
      Except.error (Err.keyError 'Q', SimpleAgent.init 0 0 0) :=
  C6_unknown_symbol trig0 default_rules 5 60 'Q' [] (SimpleAgent.init 0 0 0) rfl

/-- Claim C9: `pop` on an empty stack raises the underflow error carrying the
state at the raise, and that state is exactly the pre-call state in every
field: position, heading, stack, open polyline and archived polylines. -/
theorem C9_pop_error_atomic (s : SimpleAgent) (h : s._state = []) :
    ∃ err : Err × SimpleAgent, s.pop = Except.error err ∧ err.1 = Err.underflow ∧
      err.2.x = s.x ∧ err.2.y = s.y ∧ err.2.phi = s.phi ∧ err.2._state = s._state ∧
      err.2._trace = s._trace ∧ err.2.frozen = s.frozen ∧ err.2.live = s.live ∧
      err.2 = s := by
  refine ⟨(Err.underflow, s), ?_, rfl, rfl, rfl, rfl, rfl, rfl, rfl, rfl, rfl⟩
  simp [SimpleAgent.pop, h]

/-- Witness for C9: `pop` on a fresh agent at `(1, 2)` heading `3` underflows
and the carried state equals that fresh agent exactly. -/
theorem C9_pop_error_atomic_witness :
    ∃ err : Err × SimpleAgent,
      (SimpleAgent.init 1 2 3).pop = Except.error err ∧ err.1 = Err.underflow ∧
      err.2.x = (SimpleAgent.init 1 2 3).x ∧ err.2.y = (SimpleAgent.init 1 2 3).y ∧
      err.2.phi = (SimpleAgent.init 1 2 3).phi ∧
      err.2._state = (SimpleAgent.init 1 2 3)._state ∧
      err.2._trace = (SimpleAgent.init 1 2 3)._trace ∧
      err.2.frozen = (SimpleAgent.init 1 2 3).frozen ∧
      err.2.live = (SimpleAgent.init 1 2 3).live ∧
      err.2 = SimpleAgent.init 1 2 3 :=
  C9_pop_error_atomic (SimpleAgent.init 1 2 3) rfl

/-- Claim C5: `pop` fails if and only if the state stack is empty, the
failure is the underflow error, and on a non-empty stack it restores
`(x, y, phi)` from the top, removes that entry, archives the open polyline at
the end of the archived list, and starts a new open polyline at the restored
position. -/
theorem C5_pop_spec (s : SimpleAgent) :
    ((∃ e, s.pop = Except.error e) ↔ s._state = []) ∧
    (s._state = [] → s.pop = Except.error (Err.underflow, s)) ∧
    (∀ x y phi rest, s._state = (x, y, phi) :: rest →
      ∃ s', s.pop = Except.ok s' ∧ s'.x = x ∧ s'.y = y ∧ s'.phi = phi ∧
        s'._state = rest ∧ s'.traces = s.traces ++ [s._trace] ∧
        s'._trace = [(x, y)]) := by
  rcases hst : s._state with _ | ⟨⟨x0, y0, phi0⟩, rest0⟩
  · have hp : s.pop = Except.error (Err.underflow, s) := by
      simp [SimpleAgent.pop, hst]
    refine ⟨⟨fun _ => rfl, fun _ => ⟨(Err.underflow, s), hp⟩⟩, fun _ => hp, ?_⟩
    intro x y phi rest h
    exact List.noConfusion h
  · have hp : s.pop = Except.ok
        { x := x0, y := y0, phi := phi0, _trace := [(x0, y0)], _state := rest0,
          frozen := s.frozen ++ List.replicate (s.live + 1) s._trace, live := 0 } := by
      simp [SimpleAgent.pop, hst]
    refine ⟨⟨?_, ?_⟩, ?_, ?_⟩
    · intro ⟨e, he⟩
      rw [hp] at he
      exact Except.noConfusion he
    · intro h
      exact List.noConfusion h
    · intro h
      exact List.noConfusion h
    · intro x y phi rest h
      simp only [List.cons.injEq, Prod.mk.injEq] at h
      obtain ⟨⟨rfl, rfl, rfl⟩, rfl⟩ := h
      refine ⟨_, hp, rfl, rfl, rfl, rfl, ?_, rfl⟩
      simp [SimpleAgent.traces, List.replicate_succ', List.append_assoc]

/-- Witness for C5: popping after a single push on a fresh agent restores
`(0, 0)` heading `0`, empties the stack, archives the open polyline and
restarts the open polyline at the restored position. -/
theorem C5_pop_spec_witness :
    ∃ s', ((SimpleAgent.init 0 0 0).push).pop = Except.ok s' ∧
      s'.x = 0 ∧ s'.y = 0 ∧ s'.phi = 0 ∧ s'._state = [] ∧
      s'.traces = ((SimpleAgent.init 0 0 0).push).traces ++
        [((SimpleAgent.init 0 0 0).push)._trace] ∧
      s'._trace = [(0, 0)] :=
  (C5_pop_spec ((SimpleAgent.init 0 0 0).push)).2.2 0 0 0 [] rfl

/-- Claim C4: interpreting the command string `"F[F]F"` with step 1 and
angle 90 from `(0, 0)` heading `0` succeeds and ends at position `(2, 0)`
with heading `0`; the trace then holds exactly 3 polylines — 2 archived plus
the open one, in creation order — and the open polyline ends at `(2, 0)`.
The hypotheses fix the trigonometric values at the only heading reached,
`cos 0 = 1` and `sin 0 = 0` (exact even in floating point). -/
theorem C4_balanced_push_pop (T : Trig) (hc : T.cosd 0 = 1) (hs : T.sind 0 = 0) :
    ∃ s', processSeq T default_rules 1 90 ("F[F]F".data) (SimpleAgent.init 0 0 0) =
        Except.ok s' ∧
      s'.x = 2 ∧ s'.y = 0 ∧ s'.phi = 0 ∧
      s'.trace.length = 3 ∧ s'.traces.length = 2 ∧
      s'.trace = s'.traces ++ [s'._trace] ∧
      s'._trace.getLast? = some (2, 0) := by
  have hdata : "F[F]F".data = ['F', '[', 'F', ']', 'F'] := rfl
  have hF : default_rules 'F' = some Op.opForward := rfl
  have hPu : default_rules '[' = some Op.opPush := rfl
  have hPo : default_rules ']' = some Op.opPop := rfl
  refine ⟨{ x := 2, y := 0, phi := 0, _trace := [(1, 0), (2, 0)], _state := [],
            frozen := [[(0, 0), (1, 0), (2, 0)], [(0, 0), (1, 0), (2, 0)]], live := 0 },
          ?_, rfl, rfl, rfl, rfl, rfl, rfl, rfl⟩
  rw [hdata]
  norm_num [processSeq, hF, hPu, hPo, applyOp, SimpleAgent.forward, SimpleAgent.push,
    SimpleAgent.pop, SimpleAgent.init, hc, hs, List.replicate]

/-- Witness for C4: the run evaluated with a concrete trig table that has the
correct values at heading 0. -/
theorem C4_balanced_push_pop_witness :
    ∃ s', processSeq trig0 default_rules 1 90 ("F[F]F".data) (SimpleAgent.init 0 0 0) =
        Except.ok s' ∧
      s'.x = 2 ∧ s'.y = 0 ∧ s'.phi = 0 ∧
      s'.trace.length = 3 ∧ s'.traces.length = 2 ∧
      s'.trace = s'.traces ++ [s'._trace] ∧
      s'._trace.getLast? = some (2, 0) :=
  C4_balanced_push_pop trig0 rfl rfl

/-- Claim C7: for every distance `d ≥ 0`, `forward d` succeeds, moves the
position to `(x + d * cos(2*pi*phi/360), y + d * sin(2*pi*phi/360))` (here
via the abstract degree-trig functions), appends the new position to the open
polyline, and leaves heading, stack and archived polylines unchanged;
concretely, from `(0, 0)` heading `0`, `forward 1` reaches `(1, 0)`, and
after `rotate 90` a further `forward 1` reaches `(1, 1)` (exactly, at the
exact trig values `cos 90 = 0`, `sin 90 = 1`). -/
theorem C7_forward_spec :
    (∀ (T : Trig) (s : SimpleAgent) (d : ℚ), 0 ≤ d →
      ∃ s', s.forward T d = Except.ok s' ∧
        s'.x = s.x + d * T.cosd s.phi ∧ s'.y = s.y + d * T.sind s.phi ∧
        s'._trace = s._trace ++ [(s'.x, s'.y)] ∧ s'.phi = s.phi ∧
        s'._state = s._state ∧ s'.frozen = s.frozen ∧ s'.live = s.live) ∧
    (∀ T : Trig, T.cosd 0 = 1 → T.sind 0 = 0 → T.cosd 90 = 0 → T.sind 90 = 1 →
      ∃ s1 s2, (SimpleAgent.init 0 0 0).forward T 1 = Except.ok s1 ∧
        s1.x = 1 ∧ s1.y = 0 ∧
        (s1.rotate 90).forward T 1 = Except.ok s2 ∧ s2.x = 1 ∧ s2.y = 1) := by
  constructor
  · intro T s d hd
    refine ⟨{ s with
              x := s.x + d * T.cosd s.phi,
              y := s.y + d * T.sind s.phi,
              _trace := s._trace ++
                [(s.x + d * T.cosd s.phi, s.y + d * T.sind s.phi)] },
            ?_, rfl, rfl, rfl, rfl, rfl, rfl, rfl⟩
    simp [SimpleAgent.forward, hd]
  · intro T h1 h2 h3 h4
    refine ⟨{ x := 1, y := 0, phi := 0, _trace := [(0, 0), (1, 0)], _state := [],
              frozen := [], live := 0 },
            { x := 1, y := 1, phi := 90, _trace := [(0, 0), (1, 0), (1, 1)], _state := [],
              frozen := [], live := 0 },
            ?_, rfl, rfl, ?_, rfl, rfl⟩
    · norm_num [SimpleAgent.forward, SimpleAgent.init, h1, h2]
    · norm_num [SimpleAgent.forward, SimpleAgent.rotate, h3, h4]

/-- Witness for C7: the general part applied at the all-ones trig table with
`d = 1`, and the two-step scenario evaluated at a concrete trig table with
the correct values at headings 0 and 90. -/
theorem C7_forward_spec_witness :
    (∃ s', (SimpleAgent.init 0 0 0).forward trig0 1 = Except.ok s' ∧
      s'.x = (SimpleAgent.init 0 0 0).x + 1 * trig0.cosd (SimpleAgent.init 0 0 0).phi ∧
      s'.y = (SimpleAgent.init 0 0 0).y + 1 * trig0.sind (SimpleAgent.init 0 0 0).phi ∧
      s'._trace = (SimpleAgent.init 0 0 0)._trace ++ [(s'.x, s'.y)] ∧
      s'.phi = (SimpleAgent.init 0 0 0).phi ∧
      s'._state = (SimpleAgent.init 0 0 0)._state ∧
      s'.frozen = (SimpleAgent.init 0 0 0).frozen ∧
      s'.live = (SimpleAgent.init 0 0 0).live) ∧
    (∃ s1 s2, (SimpleAgent.init 0 0 0).forward trig01 1 = Except.ok s1 ∧
      s1.x = 1 ∧ s1.y = 0 ∧
      (s1.rotate 90).forward trig01 1 = Except.ok s2 ∧ s2.x = 1 ∧ s2.y = 1) :=
  ⟨C7_forward_spec.1 trig0 (SimpleAgent.init 0 0 0) 1 (by norm_num),
   C7_forward_spec.2 trig01 (by norm_num [trig01]) (by norm_num [trig01])
     (by norm_num [trig01]) (by norm_num [trig01])⟩

/-- Every polyline in the `trace` property has at least one point. -/
def goodTraces (s : SimpleAgent) : Prop :=
  ∀ t ∈ s.trace, t ≠ []

instance goodTracesDecidable (s : SimpleAgent) : Decidable (goodTraces s) :=
  inferInstanceAs (Decidable (∀ t ∈ s.trace, t ≠ []))

/-- The trace invariant reduces to the frozen polylines and the open one:
the live aliases are copies of the open polyline. -/
lemma goodTraces_iff (s : SimpleAgent) :
    goodTraces s ↔ (∀ t ∈ s.frozen, t ≠ []) ∧ s._trace ≠ [] := by
  simp only [goodTraces, SimpleAgent.trace, SimpleAgent.traces, List.mem_append,
    List.mem_replicate, List.mem_singleton]
  constructor
  · intro h
    exact ⟨fun t ht => h t (Or.inl (Or.inl ht)), h s._trace (Or.inr rfl)⟩
  · rintro ⟨hf, ho⟩ t (ht | rfl)
    · rcases ht with ht | ⟨-, rfl⟩
      · exact hf t ht
      · exact ho
    · exact ho

/-- Claim C8: the trace invariant — every polyline (archived or open) has at
least one point — holds after initialization and is preserved by each of
`forward`, `backward`, `rotate`, `push`, `pop` and `noop` (for the fallible
operations: whenever they succeed). -/
theorem C8_trace_nonempty_invariant :
    (∀ x0 y0 phi0 : ℚ, goodTraces (SimpleAgent.init x0 y0 phi0)) ∧
    (∀ (T : Trig) (s : SimpleAgent) (r : ℚ) (s' : SimpleAgent),
      goodTraces s → s.forward T r = Except.ok s' → goodTraces s') ∧
    (∀ (T : Trig) (s : SimpleAgent) (r : ℚ) (s' : SimpleAgent),
      goodTraces s → s.backward T r = Except.ok s' → goodTraces s') ∧
    (∀ (s : SimpleAgent) (a : ℚ), goodTraces s → goodTraces (s.rotate a)) ∧
    (∀ s : SimpleAgent, goodTraces s → goodTraces s.push) ∧
    (∀ (s s' : SimpleAgent), goodTraces s → s.pop = Except.ok s' → goodTraces s') ∧
    (∀ s : SimpleAgent, goodTraces s → goodTraces s.noop) := by
  have hfwd : ∀ (T : Trig) (s : SimpleAgent) (r : ℚ) (s' : SimpleAgent),
      goodTraces s → s.forward T r = Except.ok s' → goodTraces s' := by
    intro T s r s' hg h
    rw [goodTraces_iff] at hg
    simp only [SimpleAgent.forward] at h
    split at h
    · injection h with h
      subst h
      rw [goodTraces_iff]
      exact ⟨hg.1, by simp⟩
    · exact Except.noConfusion h
  refine ⟨?_, hfwd, ?_, ?_, ?_, ?_, ?_⟩
  · intro x0 y0 phi0
    rw [goodTraces_iff]
    exact ⟨by simp [SimpleAgent.init], by simp [SimpleAgent.init]⟩
  · intro T s r s' hg h
    exact hfwd T s (-1 * r) s' hg h
  · intro s a hg
    rw [goodTraces_iff] at hg ⊢
    exact hg
  · intro s hg
    rw [goodTraces_iff] at hg ⊢
    exact hg
  · intro s s' hg h
    rw [goodTraces_iff] at hg
    rcases hst : s._state with _ | ⟨⟨x0, y0, phi0⟩, rest0⟩ <;>
      simp only [SimpleAgent.pop, hst] at h
    · exact Except.noConfusion h
    · injection h with h
      subst h
      rw [goodTraces_iff]
      refine ⟨?_, by simp⟩
      intro t ht
      rcases List.mem_append.mp ht with ht | ht
      · exact hg.1 t ht
      · exact (List.eq_of_mem_replicate ht) ▸ hg.2
  · intro s hg
    exact hg

/-- Witness for C8: preservation through a concrete successful `pop` — after
`push` then `pop` on a fresh agent, every polyline still has a point. -/
theorem C8_trace_nonempty_invariant_witness :
    goodTraces { x := 0, y := 0, phi := 0, _trace := [(0, 0)], _state := [],
                 frozen := [[(0, 0)], [(0, 0)]], live := 0 } :=
  C8_trace_nonempty_invariant.2.2.2.2.2.1 ((SimpleAgent.init 0 0 0).push)
    { x := 0, y := 0, phi := 0, _trace := [(0, 0)], _state := [],
      frozen := [[(0, 0)], [(0, 0)]], live := 0 }
    (by decide) (by decide)

/-- The number of symbols of a command sequence whose table entry is the push
or the pop operation: the pushes and pops the interpreter will execute. -/
def countPushPop (rules : Char → Option Op) : List Char → Nat
  | [] => 0
  | c :: cs =>
      (if rules c = some Op.opPush ∨ rules c = some Op.opPop then 1 else 0) +
        countPushPop rules cs

/-- One dispatched operation grows the polyline count by one exactly when it
is the push or the pop operation. -/
lemma applyOp_trace_length (T : Trig) (op : Op) (s : SimpleAgent) (d a : ℚ)
    (s' : SimpleAgent) (h : applyOp T op s d a = Except.ok s') :
    s'.trace.length = s.trace.length +
      (if op = Op.opPush ∨ op = Op.opPop then 1 else 0) := by
  cases op <;> simp only [applyOp] at h
  case opForward =>
    simp only [SimpleAgent.forward] at h
    split at h
    · injection h with h
      subst h
      simp [trace_length]
    · exact Except.noConfusion h
  case opBack => exact Except.noConfusion h
  case opRotNeg =>
    injection h with h
    subst h
    simp [trace_length, SimpleAgent.rotate]
  case opRotPos =>
    injection h with h
    subst h
    simp [trace_length, SimpleAgent.rotate]
  case opNoop =>
    injection h with h
    subst h
    simp [SimpleAgent.noop]
  case opPush =>
    injection h with h
    subst h
    simp [trace_length, SimpleAgent.push]
    omega
  case opPop =>
    rcases hst : s._state with _ | ⟨⟨x0, y0, phi0⟩, rest0⟩ <;>
      simp only [SimpleAgent.pop, hst] at h
    · exact Except.noConfusion h
    · injection h with h
      subst h
      simp [trace_length]
      omega

/-- Running the interpreter adds one polyline per executed push and per
executed pop. -/
lemma processSeq_trace_length (T : Trig) (rules : Char → Option Op)
    (step dphi : ℚ) :
    ∀ (cs : List Char) (s s' : SimpleAgent),
      processSeq T rules step dphi cs s = Except.ok s' →
      s'.trace.length = s.trace.length + countPushPop rules cs := by
  intro cs
  induction cs with
  | nil =>
    intro s s' h
    injection h with h
    subst h
    simp [countPushPop]
  | cons c cs ih =>
    intro s s' h
    simp only [processSeq] at h
    rcases hr : rules c with _ | op <;> simp only [hr] at h
    · exact Except.noConfusion h
    · rcases ha : applyOp T op s step dphi with e | s1 <;> simp only [ha] at h
      · exact Except.noConfusion h
      · have h1 := applyOp_trace_length T op s step dphi s1 ha
        have h2 := ih s1 s' h
        have h3 : (if rules c = some Op.opPush ∨ rules c = some Op.opPop
              then 1 else 0) =
            (if op = Op.opPush ∨ op = Op.opPop then 1 else 0) := by
          rw [hr]
          simp
        rw [h2, h1, countPushPop, h3]
        omega

/-- Claim C10: after a successful interpretation of any command sequence from
a fresh agent, the number of polylines in `trace` is exactly one plus the
number of push operations plus the number of pop operations executed. -/
theorem C10_trace_count (T : Trig) (rules : Char → Option Op) (step dphi : ℚ)
    (cs : List Char) (x0 y0 phi0 : ℚ) (s' : SimpleAgent)
    (h : processSeq T rules step dphi cs (SimpleAgent.init x0 y0 phi0) =
      Except.ok s') :
    s'.trace.length = 1 + countPushPop rules cs := by
  have hlen := processSeq_trace_length T rules step dphi cs _ s' h
  rw [hlen, trace_length]
  simp [SimpleAgent.init]

/-- Witness for C10: the run of `"F[F]F"` ends with `1 + 2 = 3` polylines. -/
theorem C10_trace_count_witness :
    ({ x := 2, y := 0, phi := 0, _trace := [(1, 0), (2, 0)], _state := [],
       frozen := [[(0, 0), (1, 0), (2, 0)], [(0, 0), (1, 0), (2, 0)]],
       live := 0 } : SimpleAgent).trace.length =
      1 + countPushPop default_rules ['F', '[', 'F', ']', 'F'] :=
  C10_trace_count trig0 default_rules 1 90 ['F', '[', 'F', ']', 'F'] 0 0 0 _
    (by norm_num [processSeq, applyOp, SimpleAgent.forward, SimpleAgent.push,
      SimpleAgent.pop, SimpleAgent.init, default_rules, trig0, List.replicate])

end LSys
